import Mathlib

set_option maxHeartbeats 1000000

/-!
Shallow embedding of `src/changelogup.py` (class `AutoChangelogger`).

Strings are modelled as `List Char` (Python string indices are code-point
indices, matching list positions).  Datetimes are modelled as natural
numbers: a calendar date `(y, m, d)` maps to the timestamp
`((y * 100 + m) * 100 + d) * 100000`, the instant of midnight of that day;
times within a day add an offset below 100000.  This ordering agrees with
datetime ordering for all tokens the date regex can produce.  A PR body is
a `List Char`, with `[]` playing the role of an absent body: Python tests
the body with `if pr.body:`, which treats `None` and the empty string
identically, so the embedding cannot and need not distinguish them.
-/

/-- The seven categories, in the insertion order of the `self.categories`
dict of `AutoChangelogger.__init__` (Python dicts iterate in insertion
order). -/
inductive Cat where
  | feature
  | bug
  | docs
  | refactor
  | test
  | chore
  | breaking
deriving DecidableEq

/-- Iteration order of `self.categories.keys()` / `self.categories.items()`. -/
def catOrder : List Cat :=
  [.feature, .bug, .docs, .refactor, .test, .chore, .breaking]

/-- The dict keys: the keyword each category is matched by. -/
def kw : Cat → List Char
  | .feature => "feature".toList
  | .bug => "bug".toList
  | .docs => "docs".toList
  | .refactor => "refactor".toList
  | .test => "test".toList
  | .chore => "chore".toList
  | .breaking => "breaking".toList

/-- The dict values: display headers of `self.categories`. -/
def catHeader : Cat → List Char
  | .feature => "### ✨ New Features".toList
  | .bug => "### 🐛 Bug Fixes".toList
  | .docs => "### 📚 Documentation".toList
  | .refactor => "### ♻️ Code Refactoring".toList
  | .test => "### 🧪 Tests".toList
  | .chore => "### 🔧 Maintenance".toList
  | .breaking => "### ⚠️ Breaking Changes".toList

/-- A pull request as the code reads it: `number`, `title`, `body`
(`[]` = absent, see the header comment), `user.login`, `merged`,
`merged_at` (as a `Nat` timestamp) and the label names. -/
structure PR where
  number : Nat
  title : List Char
  body : List Char
  author : List Char
  merged : Bool
  mergedAt : Nat
  labels : List (List Char)
deriving DecidableEq

/-- Python `str.lower()` (ASCII-faithful). -/
def lowerStr (l : List Char) : List Char := l.map Char.toLower

/-- `startsWithL needle hay`: `hay` begins with `needle`. -/
def startsWithL : List Char → List Char → Bool
  | [], _ => true
  | _ :: _, [] => false
  | a :: as, b :: bs => a == b && startsWithL as bs

/-- Python substring containment `needle in hay`. -/
def hasSub (needle : List Char) : List Char → Bool
  | [] => startsWithL needle []
  | c :: t => startsWithL needle (c :: t) || hasSub needle t

/-- The inner loop of `categorize_pr` lines 58-61: for one label name,
the first category in `self.categories.keys()` order whose keyword is a
substring of the lowercased label. -/
def labelCat (name : List Char) : Option Cat :=
  catOrder.find? (fun c => hasSub (kw c) (lowerStr name))

/-- The outer loop of `categorize_pr` lines 57-61: labels are scanned in
their order on the PR; the first label yielding a category returns it. -/
def firstLabelCat : List (List Char) → Option Cat
  | [] => none
  | l :: ls =>
    match labelCat l with
    | some c => some c
    | none => firstLabelCat ls

/-- `': .+'` tail of the conventional-commit regex: a colon, a space and
at least one character that is not a newline (`.` excludes newlines,
`re.match` needs no full match). -/
def colonRestOk : List Char → Bool
  | ':' :: ' ' :: c :: _ => c != '\n'
  | _ => false

/-- Matching of the regex fragment `.+\): .+` after an opening paren:
`consumed` records whether `.+` has already matched at least one
character; a `)` may close the group once `consumed` is true, after which
`': .+'` must follow; any non-newline character may extend the group. -/
def parenAux : Bool → List Char → Bool
  | _, [] => false
  | consumed, c :: rest =>
    (consumed && c == ')' && colonRestOk rest) || (c != '\n' && parenAux true rest)

/-- The optional scope group `\(.+\)` followed by `': .+'`. -/
def parenOk : List Char → Bool
  | '(' :: rest => parenAux false rest
  | _ => false

/-- The regex alternatives `feat|fix|docs|refactor|test|chore|breaking`
in order, paired with the `type_mapping` of `categorize_pr` lines 68-76
(`feat` to feature, `fix` to bug, the rest to themselves). -/
def ccTokens : List (List Char × Cat) :=
  [("feat".toList, .feature), ("fix".toList, .bug), ("docs".toList, .docs),
   ("refactor".toList, .refactor), ("test".toList, .test), ("chore".toList, .chore),
   ("breaking".toList, .breaking)]

/-- `re.match(r'^(feat|fix|docs|refactor|test|chore|breaking)(\(.+\))?: .+', title)`
followed by the `type_mapping` lookup.  No alternative is a proper prefix
of another, so at most one alternative can match the start of the title,
and after a successful match the leading `\w+` is exactly that token
(the next character is `(` or `:`, both non-word). -/
def conventional (title : List Char) : Option Cat :=
  match ccTokens.find? (fun p => startsWithL p.1 title) with
  | none => none
  | some p =>
    if colonRestOk (title.drop p.1.length) || parenOk (title.drop p.1.length) then
      some p.2
    else none

/-- `categorize_pr` lines 56-79: labels first (label-major scan), then the
conventional-commit title pattern, then the `'chore'` default. -/
def categorize (pr : PR) : Cat :=
  match firstLabelCat pr.labels with
  | some c => c
  | none =>
    match conventional pr.title with
    | some c => c
    | none => .chore

/-- Longest prefix without the stop character, and the rest: the
deterministic matching of a negated character class such as `[^\]]+`
(greedy, and no shorter match can be followed by the stop character). -/
def spanNe (stop : Char) : List Char → List Char × List Char
  | [] => ([], [])
  | c :: t =>
    if c == stop then ([], c :: t)
    else (c :: (spanNe stop t).1, (spanNe stop t).2)

/-- One attempt of the link regex `\[([^\]]+)\]\([^)]+\)` at the current
position: on success, the captured text and the remainder after the
closing paren. -/
def tryLink : List Char → Option (List Char × List Char)
  | '[' :: rest =>
    match spanNe ']' rest with
    | (t1 :: ts, ']' :: '(' :: r3) =>
      match spanNe ')' r3 with
      | (_ :: _, ')' :: r5) => some (t1 :: ts, r5)
      | _ => none
    | _ => none
  | _ => none

/-- `re.sub(r'\[([^\]]+)\]\([^)]+\)', r'\1', s)`: scan left to right,
replacing each non-overlapping match by its captured text.  The fuel is
the length of the scanned list; each step consumes at least one character,
so the fuel never runs out on the initial call of `stripLinks`. -/
def stripLinksF : Nat → List Char → List Char
  | 0, l => l
  | _ + 1, [] => []
  | fuel + 1, c :: rest =>
    match tryLink (c :: rest) with
    | some (txt, r5) => txt ++ stripLinksF fuel r5
    | none => c :: stripLinksF fuel rest

/-- Markdown-link removal of `format_changelog_entry` line 94. -/
def stripLinks (l : List Char) : List Char := stripLinksF l.length l

/-- `pr.body.split('\n')[0]`. -/
def firstLine (l : List Char) : List Char := l.takeWhile (fun c => c != '\n')

/-- `format_changelog_entry` lines 91-98: `- <description> (#<number>) - @<login>`,
where the description is the link-stripped first body line, or the title
when the body is absent/empty (Python truthiness of `pr.body`). -/
def formatEntry (pr : PR) : List Char :=
  "- ".toList ++
    (if pr.body.isEmpty then pr.title else stripLinks (firstLine pr.body)) ++
    " (#".toList ++ (Nat.repr pr.number).toList ++ ") - @".toList ++ pr.author

/-- One attempt of the date regex `\d{4}-\d{2}-\d{2}` at the current
position, returning `(year, month, day)` as read. -/
def matchDate : List Char → Option (Nat × Nat × Nat)
  | a :: b :: c :: d :: '-' :: e :: f :: '-' :: g :: h :: _ =>
    if a.isDigit && b.isDigit && c.isDigit && d.isDigit &&
        e.isDigit && f.isDigit && g.isDigit && h.isDigit then
      some ((a.toNat - 48) * 1000 + (b.toNat - 48) * 100 + (c.toNat - 48) * 10 + (d.toNat - 48),
            (e.toNat - 48) * 10 + (f.toNat - 48),
            (g.toNat - 48) * 10 + (h.toNat - 48))
    else none
  | _ => none

/-- `re.findall(r'\d{4}-\d{2}-\d{2}', content)` then `dates[0]`: the
leftmost match of the date pattern, if any (`update_changelog` lines
114-116). -/
def firstDate : List Char → Option (Nat × Nat × Nat)
  | [] => none
  | c :: t =>
    match matchDate (c :: t) with
    | some d => some d
    | none => firstDate t

/-- `datetime.strptime(token, '%Y-%m-%d')` as a `Nat` timestamp (midnight
of the date, see the header comment). -/
def dateToTs (d : Nat × Nat × Nat) : Nat :=
  ((d.1 * 100 + d.2.1) * 100 + d.2.2) * 100000

/-- The entry lines of one category block (`update_changelog` lines 140-141). -/
def entryLines (g : List PR) : List Char :=
  (g.map (fun pr => formatEntry pr ++ ['\n'])).flatten

/-- One category block: header, blank line, entries, trailing newline
(`update_changelog` lines 139-142). -/
def blockText (c : Cat) (g : List PR) : List Char :=
  catHeader c ++ "\n\n".toList ++ entryLines g ++ ['\n']

/-- The group `categorized_prs[c]` built by lines 128-133: the selected
PRs assigned to category `c`, in selection order. -/
def catGroup (prs : List PR) (c : Cat) : List PR :=
  prs.filter (fun pr => decide (categorize pr = c))

/-- `new_section` of `update_changelog` lines 136-142: the dated heading,
then for each category in `self.categories.items()` order its block if
its group is non-empty. -/
def newSection (d : List Char) (prs : List PR) : List Char :=
  "\n## [".toList ++ d ++ "]\n\n".toList ++
    (catOrder.map (fun c =>
      if (catGroup prs c).isEmpty then [] else blockText c (catGroup prs c))).flatten

/-- The block a category contributes, if its group is non-empty. -/
def blockOf (prs : List PR) (c : Cat) : Option (Cat × List PR) :=
  if (catGroup prs c).isEmpty then none else some (c, catGroup prs c)

/-- The non-empty category blocks of the rendered section, in category
order, as data (used to state structural properties of `newSection`). -/
def sectionBlocks (prs : List PR) : List (Cat × List PR) :=
  catOrder.filterMap (blockOf prs)

/-- `existing_content.find("\n\n")`: index of the first occurrence, as an
`Option` (`none` standing for Python's `-1`). -/
def findNN : List Char → Option Nat
  | [] => none
  | [_] => none
  | c1 :: c2 :: t =>
    if c1 = '\n' ∧ c2 = '\n' then some 0
    else (findNN (c2 :: t)).map (· + 1)

/-- `header_end = existing_content.find("\n\n") + 2` (line 145): `-1 + 2 = 1`
when there is no blank-line boundary. -/
def headerEnd (content : List Char) : Nat :=
  match findNN content with
  | some i => i + 2
  | none => 1

/-- Lines 146-150: `existing[:header_end] + new_section + existing[header_end:]`. -/
def splice (existing sect : List Char) : List Char :=
  existing.take (headerEnd existing) ++ sect ++ existing.drop (headerEnd existing)

/-- The header synthesized on line 118 when the changelog file does not exist. -/
def defaultHeader : List Char :=
  "# Changelog\n\nAll notable changes to this project will be documented in this file.\n\n".toList

/-- `last_update` (lines 111-119): the first date token of the existing
content when the file exists, `None` otherwise. -/
def cutoffTs (fileExists : Bool) (content : List Char) : Option Nat :=
  if fileExists then (firstDate content).map dateToTs else none

/-- The predicate of `get_merged_prs` line 44:
`pr.merged and (not since_date or pr.merged_at >= since_date)`. -/
def qualifies (cutoff : Option Nat) (pr : PR) : Bool :=
  pr.merged &&
    (match cutoff with
     | none => true
     | some t => decide (t ≤ pr.mergedAt))

/-- The list comprehension of `get_merged_prs` line 44 over the supplied
PRs, preserving their order. -/
def selectPRs (cutoff : Option Nat) (prs : List PR) : List PR :=
  prs.filter (qualifies cutoff)

/-- Outcome of one `update_changelog` run: the content written, if any,
and the message printed. -/
structure RunResult where
  written : Option (List Char)
  message : List Char
deriving DecidableEq

/-- Message of line 124. -/
def noChangesMsg : List Char := "No new changes to add to changelog.".toList

/-- Message of line 154. -/
def successMsg (file : List Char) : List Char :=
  "Changelog updated successfully: ".toList ++ file

/-- `update_changelog` lines 107-154 over the supplied PRs: read or
synthesize the existing content, compute the cutoff, select PRs, and
either report a no-op or splice the rendered section after the header
boundary and write. -/
def updateChangelog (fileExists : Bool) (content : List Char) (prs : List PR)
    (currentDate outputFile : List Char) : RunResult :=
  let existing := if fileExists then content else defaultHeader
  let sel := selectPRs (cutoffTs fileExists content) prs
  if sel.isEmpty then ⟨none, noChangesMsg⟩
  else ⟨some (splice existing (newSection currentDate sel)), successMsg outputFile⟩

/-- Claim-side reading of classification (C1): the first category in the
fixed enumeration order whose keyword some label contains, regardless of
label order.  Stated from the spec wording for comparison with
`categorize`; it is NOT what the code computes. -/
def enumFirstLabelCat (labels : List (List Char)) : Option Cat :=
  catOrder.find? (fun c => labels.any (fun l => hasSub (kw c) (lowerStr l)))

/-! ## Helper lemmas -/

/-- A found blank-line boundary lies inside the content: the two newline
characters fit before the end. -/
theorem findNN_le : ∀ (l : List Char) (i : Nat), findNN l = some i → i + 2 ≤ l.length
  | [], i, h => by simp [findNN] at h
  | [c], i, h => by simp [findNN] at h
  | c1 :: c2 :: t, i, h => by
    simp only [findNN] at h
    by_cases hc : c1 = '\n' ∧ c2 = '\n'
    · rw [if_pos hc] at h
      have hi : i = 0 := (Option.some.inj h).symm
      subst hi
      simp only [List.length_cons]
      omega
    · rw [if_neg hc, Option.map_eq_some'] at h
      obtain ⟨j, hj, hji⟩ := h
      have ih := findNN_le (c2 :: t) j hj
      simp only [List.length_cons] at ih ⊢
      omega

/-- The label scan returns the category of the first label whose
`labelCat` is defined, no matter what follows. -/
theorem firstLabelCat_append :
    ∀ (ls1 : List (List Char)), (∀ x ∈ ls1, labelCat x = none) →
      ∀ (l : List Char) (ls2 : List (List Char)) (c : Cat), labelCat l = some c →
        firstLabelCat (ls1 ++ l :: ls2) = some c
  | [], _, l, ls2, c, hc => by simp [firstLabelCat, hc]
  | a :: as, hnone, l, ls2, c, hc => by
    have ha : labelCat a = none := hnone a (by simp)
    have ih := firstLabelCat_append as (fun x hx => hnone x (by simp [hx])) l ls2 c hc
    simp [firstLabelCat, ha, ih]

/-- The scope group closes on any non-newline, non-empty remainder
followed by a closing paren and a valid `': .+'` tail. -/
theorem parenAux_closes (rest : List Char) (hrest : colonRestOk rest = true) :
    ∀ (s : List Char), (∀ ch ∈ s, ch ≠ '\n') → parenAux true (s ++ ')' :: rest) = true
  | [], _ => by simp [parenAux, hrest]
  | ch :: s', hs => by
    have hch : ch ≠ '\n' := hs ch (by simp)
    have ih := parenAux_closes rest hrest s' (fun x hx => hs x (by simp [hx]))
    simp [parenAux, ih, hch]

/-- A `feat(<scope>): x` title matches the conventional-commit pattern
with the scope ignored, for any non-empty scope without newlines. -/
theorem conventional_feat_scope (s : List Char) (hne : s ≠ [])
    (hnl : ∀ ch ∈ s, ch ≠ '\n') :
    conventional (['f', 'e', 'a', 't', '('] ++ s ++ [')', ':', ' ', 'x']) = some Cat.feature := by
  cases s with
  | nil => exact absurd rfl hne
  | cons ch s' =>
    have hch : ch ≠ '\n' := hnl ch (by simp)
    have hclose : parenAux true (s' ++ ')' :: [':', ' ', 'x']) = true :=
      parenAux_closes [':', ' ', 'x'] rfl s' (fun x hx => hnl x (by simp [hx]))
    have hparen : parenOk ('(' :: (ch :: s' ++ [')', ':', ' ', 'x'])) = true := by
      simp [parenOk, parenAux, hch]
      simpa using hclose
    unfold conventional
    have hfind : ccTokens.find? (fun p =>
        startsWithL p.1 (['f', 'e', 'a', 't', '('] ++ (ch :: s') ++ [')', ':', ' ', 'x'])) =
        some ("feat".toList, Cat.feature) := by
      simp [ccTokens, List.find?, startsWithL]
    rw [hfind]
    have hdrop : ((['f', 'e', 'a', 't', '('] ++ (ch :: s') ++ [')', ':', ' ', 'x']).drop
        ("feat".toList).length) = '(' :: (ch :: s' ++ [')', ':', ' ', 'x']) := by
      rw [show ("feat".toList).length = 4 from rfl]
      simp
    simp [hdrop, hparen]
    intro _
    exact hparen

/-! ## C1 -/

/-- Concrete PR for C1: two labels, the first matching `bug`, the second
matching `feature`. -/
def prC1 : PR :=
  ⟨1, "Update".toList, [], "alice".toList, true, 0,
   ["bugfix".toList, "feature-request".toList]⟩

/-- C1 is false on the code: `prC1` has labels containing keywords of the
two categories bug and feature; the enumeration-first matching category is
feature, but `categorize_pr` scans labels in the outer loop and returns
bug from the first label. -/
theorem C1_counterexample :
    enumFirstLabelCat prC1.labels = some Cat.feature ∧
    categorize prC1 = Cat.bug ∧ Cat.bug ≠ Cat.feature :=
  ⟨by decide, by decide, by decide⟩

/-- C1 (amended): label order takes precedence over category-enumeration
order.  The first label (in PR label order) containing any category
keyword decides: the result is the enumeration-first category whose
keyword that label contains; later labels are never consulted. -/
theorem C1_amended (pr : PR) (ls1 ls2 : List (List Char)) (l : List Char) (c : Cat)
    (hsplit : pr.labels = ls1 ++ l :: ls2)
    (hnone : ∀ x ∈ ls1, labelCat x = none)
    (hc : labelCat l = some c) :
    categorize pr = c := by
  have h1 : firstLabelCat pr.labels = some c := by
    rw [hsplit]
    exact firstLabelCat_append ls1 hnone l ls2 c hc
  simp [categorize, h1]

/-- Witness for C1 (amended) at `prC1`: the first label `bugfix` decides,
giving bug. -/
theorem C1_amended_witness : categorize prC1 = Cat.bug :=
  C1_amended prC1 [] ["feature-request".toList] ("bugfix".toList) Cat.bug rfl
    (by simp) (by decide)

/-! ## C2 -/

/-- Concrete merged PR for C2. -/
def prC2 : PR := ⟨7, "fix: crash".toList, [], "bob".toList, true, 0, []⟩

/-- C2 is false on the code: for an existing but empty changelog file the
default header is NOT synthesized (that happens only when the file does
not exist); the output is exactly the rendered section, not the header
followed by the section. -/
theorem C2_counterexample :
    (updateChangelog true [] [prC2] "2024-06-01".toList "CHANGELOG.md".toList).written =
      some (newSection "2024-06-01".toList [prC2]) ∧
    newSection "2024-06-01".toList [prC2] ≠
      defaultHeader ++ newSection "2024-06-01".toList [prC2] :=
  ⟨by decide, by decide⟩

/-- C2 (amended): the default header block is synthesized only when the
file does not exist.  For an existing empty file there is no cutoff
(every merged PR qualifies) and no synthesized header: the output is
exactly the rendered dated section, which for one merged PR has exactly
one category block. -/
theorem C2_amended (pr : PR) (d f : List Char) (hm : pr.merged = true) :
    (updateChangelog true [] [pr] d f).written = some (newSection d [pr]) ∧
    (sectionBlocks [pr]).length = 1 := by
  constructor
  · have hsel : selectPRs (cutoffTs true []) [pr] = [pr] := by
      simp [selectPRs, cutoffTs, firstDate, qualifies, hm, List.filter]
    simp [updateChangelog, hsel, splice, headerEnd, findNN]
  · cases h : categorize pr <;>
      simp [sectionBlocks, blockOf, catOrder, catGroup, List.filter, h, List.filterMap]

/-- Witness for C2 (amended) at `prC2`. -/
theorem C2_amended_witness :
    (updateChangelog true [] [prC2] "2024-06-01".toList "CHANGELOG.md".toList).written =
      some (newSection "2024-06-01".toList [prC2]) ∧
    (sectionBlocks [prC2]).length = 1 :=
  C2_amended prC2 ("2024-06-01".toList) ("CHANGELOG.md".toList) rfl

/-! ## C3 -/

/-- Concrete PR for C3, merged exactly at midnight of 2024-01-02, the
instant the cutoff of the document produced by the first run denotes. -/
def prC3 : PR :=
  ⟨7, "fix: crash".toList, [], "bob".toList, true, dateToTs (2024, 1, 2), []⟩

/-- The document the first run produces (new file, one merged PR,
current date 2024-01-02). -/
def contentC3 : List Char :=
  splice defaultHeader (newSection "2024-01-02".toList [prC3])

/-- C3 is false on the code at the boundary: after a first run, the second
run's cutoff (first date token of the produced document) equals the PR's
merge timestamp, so the hypothesis cutoff >= all merge timestamps holds,
yet the `>=` filter of `get_merged_prs` re-selects the PR and the second
run changes the document instead of being a no-op. -/
theorem C3_counterexample :
    (updateChangelog false [] [prC3] "2024-01-02".toList "CHANGELOG.md".toList).written =
      some contentC3 ∧
    (firstDate contentC3).map dateToTs = some (dateToTs (2024, 1, 2)) ∧
    prC3.mergedAt ≤ dateToTs (2024, 1, 2) ∧
    (updateChangelog true contentC3 [prC3] "2024-01-03".toList "CHANGELOG.md".toList).written ≠
      none ∧
    (updateChangelog true contentC3 [prC3] "2024-01-03".toList "CHANGELOG.md".toList).written ≠
      some contentC3 :=
  ⟨rfl, by decide, by decide, by decide, by decide⟩

/-- C3 (amended): the second run is a no-op when its cutoff is strictly
later than every merged PR's merge timestamp; with cutoff merely equal to
a merge timestamp the `>=` comparison of `get_merged_prs` re-selects that
PR. -/
theorem C3_amended (content : List Char) (prs : List PR) (d f : List Char)
    (D : Nat × Nat × Nat) (hD : firstDate content = some D)
    (hlt : ∀ pr ∈ prs, pr.merged = true → pr.mergedAt < dateToTs D) :
    updateChangelog true content prs d f = ⟨none, noChangesMsg⟩ := by
  have hsel : selectPRs (cutoffTs true content) prs = [] := by
    unfold selectPRs
    rw [List.filter_eq_nil_iff]
    intro pr hpr
    simp [qualifies, cutoffTs, hD]
    intro hm
    exact hlt pr hpr hm
  simp [updateChangelog, hsel]

/-- Document whose first date token is 2024-01-01, for the C3 witness. -/
def contentC3w : List Char := "# Changelog\n\n## [2024-01-01]\n".toList

/-- PR merged during 2023-12-31, strictly before the 2024-01-01 cutoff. -/
def prC3w : PR :=
  ⟨3, "fix: y".toList, [], "eve".toList, true, dateToTs (2023, 12, 31) + 50000, []⟩

/-- Witness for C3 (amended): strictly earlier merge, second run no-op. -/
theorem C3_amended_witness :
    updateChangelog true contentC3w [prC3w] "2024-05-05".toList "CHANGELOG.md".toList =
      ⟨none, noChangesMsg⟩ :=
  C3_amended contentC3w [prC3w] ("2024-05-05".toList) ("CHANGELOG.md".toList)
    (2024, 1, 1) (by decide)
    (fun pr hpr hm => by
      have : pr = prC3w := by simpa using hpr
      subst this
      decide)

/-! ## C4 -/

/-- C4: when the existing content has a blank-line boundary (first
occurrence at index `i`) and some PR qualifies, the written document is
the prefix of the existing content up to the end of the header block
(index `i + 2`), then the rendered section, then the remaining characters
of the existing content unmodified and in order; the suffix after the
inserted section is exactly the original post-header content. -/
theorem C4_splice (content : List Char) (prs : List PR) (d f : List Char) (i : Nat)
    (hNN : findNN content = some i)
    (hsel : selectPRs (cutoffTs true content) prs ≠ []) :
    (updateChangelog true content prs d f).written =
      some (content.take (i + 2) ++
        newSection d (selectPRs (cutoffTs true content) prs) ++
        content.drop (i + 2)) ∧
    (content.take (i + 2) ++
        newSection d (selectPRs (cutoffTs true content) prs) ++
        content.drop (i + 2)).drop
        ((i + 2) + (newSection d (selectPRs (cutoffTs true content) prs)).length) =
      content.drop (i + 2) := by
  have he : headerEnd content = i + 2 := by simp [headerEnd, hNN]
  have hlen : (content.take (i + 2)).length = i + 2 := by
    rw [List.length_take]
    have := findNN_le content i hNN
    omega
  constructor
  · have hemp : (selectPRs (cutoffTs true content) prs).isEmpty = false := by
      simp [List.isEmpty_iff, hsel]
    simp [updateChangelog, hemp, splice, he]
  · rw [List.append_assoc]
    rw [show (i + 2) + (newSection d (selectPRs (cutoffTs true content) prs)).length =
        (content.take (i + 2)).length +
          (newSection d (selectPRs (cutoffTs true content) prs)).length from by rw [hlen]]
    rw [List.drop_append]
    exact List.drop_left _ _

/-- Existing document with a blank-line boundary for the C4 witness. -/
def contentC4 : List Char := "# Log\n\nOld line\n".toList

/-- Merged PR for the C4 witness (the document has no date token, so
every merged PR qualifies). -/
def prC4 : PR := ⟨4, "docs: readme".toList, [], "kim".toList, true, 11, []⟩

/-- Witness for C4 at a concrete document and PR set. -/
theorem C4_witness :
    (updateChangelog true contentC4 [prC4] "2024-02-02".toList "CHANGELOG.md".toList).written =
      some (contentC4.take 7 ++
        newSection "2024-02-02".toList (selectPRs (cutoffTs true contentC4) [prC4]) ++
        contentC4.drop 7) ∧
    (contentC4.take 7 ++
        newSection "2024-02-02".toList (selectPRs (cutoffTs true contentC4) [prC4]) ++
        contentC4.drop 7).drop
        (7 + (newSection "2024-02-02".toList (selectPRs (cutoffTs true contentC4) [prC4])).length) =
      contentC4.drop 7 :=
  C4_splice contentC4 [prC4] ("2024-02-02".toList) ("CHANGELOG.md".toList) 5
    (by decide) (by decide)

/-! ## C5 -/

/-- C5: the cutoff is the first date token found anywhere in the content;
with a token, exactly the merged PRs with merge timestamp on/after it are
selected; with no recognizable token the selection is that of a new
document (all merged PRs), not an error. -/
theorem C5_selection (content : List Char) (prs : List PR) :
    (∀ D, firstDate content = some D →
      selectPRs (cutoffTs true content) prs =
        prs.filter (fun pr => pr.merged && decide (dateToTs D ≤ pr.mergedAt))) ∧
    (firstDate content = none →
      selectPRs (cutoffTs true content) prs = prs.filter (fun pr => pr.merged)) ∧
    (firstDate content = none →
      selectPRs (cutoffTs true content) prs = selectPRs (cutoffTs false content) prs) := by
  refine ⟨?_, ?_, ?_⟩
  · intro D hD
    simp only [selectPRs, cutoffTs, hD, if_true, Option.map_some']
    apply List.filter_congr
    intro pr _
    simp [qualifies]
  · intro hD
    simp only [selectPRs, cutoffTs, hD, if_true, Option.map_none']
    apply List.filter_congr
    intro pr _
    simp [qualifies]
  · intro hD
    simp [selectPRs, cutoffTs, hD]

/-- Content whose first date token is 2024-03-04, for the C5 witness. -/
def contentC5 : List Char := "notes 2024-03-04 more".toList

/-- PR merged exactly at the cutoff instant (selected). -/
def prC5a : PR := ⟨1, "fix: a".toList, [], "ann".toList, true, dateToTs (2024, 3, 4), []⟩

/-- PR merged strictly before the cutoff (not selected). -/
def prC5b : PR := ⟨2, "fix: b".toList, [], "ben".toList, true, dateToTs (2024, 3, 3), []⟩

/-- Witness for C5 at a concrete document and PR set. -/
theorem C5_witness :
    selectPRs (cutoffTs true contentC5) [prC5a, prC5b] =
      [prC5a, prC5b].filter
        (fun pr => pr.merged && decide (dateToTs (2024, 3, 4) ≤ pr.mergedAt)) :=
  (C5_selection contentC5 [prC5a, prC5b]).1 (2024, 3, 4) (by decide)

/-! ## C6 -/

/-- C6: when no supplied PR qualifies, the run writes nothing, reports the
informational message, and completes (a value, not an error). -/
theorem C6_noop (fileExists : Bool) (content : List Char) (prs : List PR) (d f : List Char)
    (hsel : selectPRs (cutoffTs fileExists content) prs = []) :
    updateChangelog fileExists content prs d f = ⟨none, noChangesMsg⟩ := by
  simp [updateChangelog, hsel]

/-- Changelog whose newest (and first) date token is 2024-01-01. -/
def contentC6 : List Char := "# Changelog\n\n## [2024-01-01]\n".toList

/-- PR merged during 2023-12-31. -/
def prC6 : PR :=
  ⟨9, "fix: old".toList, [], "bob".toList, true, dateToTs (2023, 12, 31) + 40000, []⟩

/-- Witness for C6: the scenario of the claim (newest date 2024-01-01,
all PRs merged 2023-12-31) is a no-op with the informational message. -/
theorem C6_witness :
    updateChangelog true contentC6 [prC6] "2024-02-02".toList "CHANGELOG.md".toList =
      ⟨none, noChangesMsg⟩ :=
  C6_noop true contentC6 [prC6] ("2024-02-02".toList) ("CHANGELOG.md".toList) (by decide)

/-! ## C7 -/

/-- The categories of the rendered blocks form a sublist of the fixed
enumeration order, for any initial segment of that order. -/
theorem blocksOrder (prs : List PR) : ∀ (l : List Cat),
    ((l.filterMap (blockOf prs)).map Prod.fst).Sublist l
  | [] => by simp
  | c :: t => by
    by_cases h : catGroup prs c = []
    · simp only [List.filterMap_cons, blockOf, h, List.isEmpty_nil, if_true]
      exact (blocksOrder prs t).cons c
    · have hne : (catGroup prs c).isEmpty = false := by simp [h]
      simp only [List.filterMap_cons, blockOf, hne, Bool.false_eq_true, if_false, List.map_cons]
      exact (blocksOrder prs t).cons₂ c

/-- Every rendered block is non-empty and holds exactly the selected PRs
of its category, in selection order. -/
theorem blocksMem (prs : List PR) (c : Cat) (g : List PR)
    (h : (c, g) ∈ sectionBlocks prs) : g ≠ [] ∧ g = catGroup prs c := by
  unfold sectionBlocks at h
  rw [List.mem_filterMap] at h
  obtain ⟨a, _, ha⟩ := h
  by_cases he : catGroup prs a = []
  · simp [blockOf, he] at ha
  · have hne : (catGroup prs a).isEmpty = false := by simp [he]
    simp only [blockOf, hne, Bool.false_eq_true, if_false, Option.some.injEq,
      Prod.mk.injEq] at ha
    obtain ⟨rfl, rfl⟩ := ha
    exact ⟨he, rfl⟩

/-- The rendered section text is the dated heading followed by the texts
of exactly the non-empty blocks. -/
theorem newSection_eq_blocks (d : List Char) (prs : List PR) :
    newSection d prs =
      "\n## [".toList ++ d ++ "]\n\n".toList ++
        ((sectionBlocks prs).map (fun b => blockText b.1 b.2)).flatten := by
  unfold newSection sectionBlocks
  have hflat : ∀ (l : List Cat),
      (l.map (fun c =>
        if (catGroup prs c).isEmpty then [] else blockText c (catGroup prs c))).flatten =
      ((l.filterMap (blockOf prs)).map (fun b => blockText b.1 b.2)).flatten := by
    intro l
    induction l with
    | nil => simp
    | cons c t ih =>
      simp only [List.isEmpty_iff] at ih
      by_cases h : catGroup prs c = [] <;>
        simp [List.filterMap_cons, blockOf, h, ih]
  rw [hflat]

/-- C7: category blocks appear in the fixed enumeration order whatever
the PR arrival order, a block appears only for a non-empty group, each
group is the selected PRs of that category in selection order, and the
rendered text is the dated heading followed by exactly those blocks. -/
theorem C7_section_structure (prs : List PR) (d : List Char) :
    ((sectionBlocks prs).map Prod.fst).Sublist catOrder ∧
    (∀ c g, (c, g) ∈ sectionBlocks prs →
      g ≠ [] ∧ g = prs.filter (fun pr => decide (categorize pr = c))) ∧
    newSection d prs =
      "\n## [".toList ++ d ++ "]\n\n".toList ++
        ((sectionBlocks prs).map (fun b => blockText b.1 b.2)).flatten :=
  ⟨blocksOrder prs catOrder,
   fun c g h => blocksMem prs c g h,
   newSection_eq_blocks d prs⟩

/-- Concrete PR for the C7 witness (a bug by conventional-commit title). -/
def prC7 : PR := ⟨8, "fix: leak".toList, [], "dan".toList, true, 0, []⟩

/-- Witness for C7: the single block of a one-PR set is non-empty and is
that category's filtered group. -/
theorem C7_witness :
    [prC7] ≠ [] ∧
    [prC7] = [prC7].filter (fun pr => decide (categorize pr = Cat.bug)) :=
  (C7_section_structure [prC7] ("2024-01-01".toList)).2.1 Cat.bug [prC7] (by decide)

/-! ## C8 -/

/-- C8: `categorize_pr` is total (the result is always one of the seven
categories) and follows strict precedence: a label match decides first;
otherwise a conventional-commit title match decides, with `feat` mapped
to feature, `fix` to bug, the other tokens to themselves and a
parenthesized scope ignored; otherwise the result is chore. -/
theorem C8_precedence (pr : PR) :
    categorize pr ∈ catOrder ∧
    (∀ c, firstLabelCat pr.labels = some c → categorize pr = c) ∧
    (firstLabelCat pr.labels = none →
      ∀ c, conventional pr.title = some c → categorize pr = c) ∧
    (firstLabelCat pr.labels = none → conventional pr.title = none →
      categorize pr = Cat.chore) ∧
    conventional ("feat: x".toList) = some Cat.feature ∧
    conventional ("fix: y".toList) = some Cat.bug ∧
    conventional ("docs: z".toList) = some Cat.docs ∧
    conventional ("refactor: r".toList) = some Cat.refactor ∧
    conventional ("test: t".toList) = some Cat.test ∧
    conventional ("chore: c".toList) = some Cat.chore ∧
    conventional ("breaking: b".toList) = some Cat.breaking ∧
    (∀ s, s ≠ [] → (∀ ch ∈ s, ch ≠ '\n') →
      conventional (['f', 'e', 'a', 't', '('] ++ s ++ [')', ':', ' ', 'x']) =
        some Cat.feature) := by
  refine ⟨?_, ?_, ?_, ?_, by decide, by decide, by decide, by decide, by decide,
    by decide, by decide, conventional_feat_scope⟩
  · cases h : categorize pr <;> simp [catOrder]
  · intro c h
    simp [categorize, h]
  · intro h c h2
    simp [categorize, h, h2]
  · intro h h2
    simp [categorize, h, h2]

/-- Concrete PR for the C8 witness: label `bug-critical`, title with no
conventional prefix; the label decides. -/
def prC8 : PR :=
  ⟨2, "Random fix".toList, [], "ann".toList, true, 0, ["bug-critical".toList]⟩

/-- Witness for C8: the label match decides for `prC8`. -/
theorem C8_witness : categorize prC8 = Cat.bug :=
  (C8_precedence prC8).2.1 Cat.bug (by decide)

/-! ## C9 -/

/-- Concrete PR for C9: the scenario of the spec. -/
def prC9 : PR :=
  ⟨5, "feat: add caching layer".toList,
   "Adds an LRU cache. See [docs](http://x)".toList, "alice".toList, true, 0, []⟩

/-- C9: every formatted entry is the single line
`- <description> (#<number>) - @<author>`, with the description the
link-stripped first body line, falling back to the title for an absent
body; on the spec scenario the entry is
`- Adds an LRU cache. See docs (#5) - @alice`. -/
theorem C9_entry_format (pr : PR) :
    formatEntry pr =
      "- ".toList ++
        (if pr.body = [] then pr.title else stripLinks (firstLine pr.body)) ++
        " (#".toList ++ (Nat.repr pr.number).toList ++ ") - @".toList ++ pr.author ∧
    formatEntry prC9 = "- Adds an LRU cache. See docs (#5) - @alice".toList := by
  constructor
  · cases hb : pr.body with
    | nil => simp [formatEntry, hb]
    | cons x xs => simp [formatEntry, hb]
  · decide

/-! ## C10 -/

/-- C10: for a non-empty document with no blank-line boundary,
`find` returns `-1`, the computed header end is `1`, and the new section
is inserted after the first character, splitting the original first
line. -/
theorem C10_no_boundary (content : List Char) (prs : List PR) (d f : List Char)
    (hne : content ≠ []) (hNN : findNN content = none)
    (hsel : selectPRs (cutoffTs true content) prs ≠ []) :
    headerEnd content = 1 ∧
    content.take 1 = [content.head hne] ∧
    (updateChangelog true content prs d f).written =
      some (content.take 1 ++
        newSection d (selectPRs (cutoffTs true content) prs) ++
        content.drop 1) := by
  have he : headerEnd content = 1 := by simp [headerEnd, hNN]
  refine ⟨he, ?_, ?_⟩
  · cases content with
    | nil => exact absurd rfl hne
    | cons c t => simp
  · have hemp : (selectPRs (cutoffTs true content) prs).isEmpty = false := by
      simp [List.isEmpty_iff, hsel]
    simp [updateChangelog, hemp, splice, he]

/-- Non-empty single-line document without a blank-line boundary. -/
def contentC10 : List Char := "# Changelog\n".toList

/-- Merged PR for the C10 witness. -/
def prC10 : PR := ⟨6, "chore: tidy".toList, [], "lee".toList, true, 12, []⟩

/-- Witness for C10 at a concrete document and PR set. -/
theorem C10_witness :
    headerEnd contentC10 = 1 ∧
    contentC10.take 1 = [contentC10.head (by decide)] ∧
    (updateChangelog true contentC10 [prC10] "2024-06-01".toList "CHANGELOG.md".toList).written =
      some (contentC10.take 1 ++
        newSection "2024-06-01".toList (selectPRs (cutoffTs true contentC10) [prC10]) ++
        contentC10.drop 1) :=
  C10_no_boundary contentC10 [prC10] ("2024-06-01".toList) ("CHANGELOG.md".toList)
    (by decide) (by decide) (by decide)
